import Mathlib

/-!
Verification of the Verisafe oracle-agent pipeline.

Shallow embedding of:
 - backend/oracle/price-fetcher.js  (multi-source aggregation)
 - backend/zk/groth16-prover.js     (salt sampling, proof serialization)
 - backend/greenfield/client.js     (checksums, archive upload)
 - backend/oracle/agent.js          (retry, submitOnce cycle)

External effects (HTTP fetches, snarkjs, the Greenfield SDK, the RPC
provider, the filesystem) are modelled as environment-supplied outcomes;
every piece of control flow and arithmetic in scope is translated from the
source.  JS numbers are modelled as `JSNum` (NaN / infinities / a rational),
byte buffers as `List ℕ`, JS strings as `List Char`.
-/

namespace Veris

/-! ### price-fetcher.js constants (lines 17-19) -/

def MAX_DEVIATION_BPS : ℤ := 200

def MIN_SOURCES : ℕ := 2

/-! ### JS numbers

A JS `number` is NaN, an infinity, or (for the values this pipeline
manipulates) a finite value modelled as a rational. -/

inductive JSNum where
  | nan : JSNum
  | posInf : JSNum
  | negInf : JSNum
  | fin (q : ℚ) : JSNum
deriving DecidableEq

/-- The acceptance test of `fetchOne` (line 51): the value is kept iff
`isFinite(price)` holds and `price <= 0` is false, i.e. it is a finite
positive number. -/
def jsValidPrice : JSNum → Bool
  | .fin q => decide (0 < q)
  | _ => false

/-- One per-source result object (`{ name, price, ok, error? }`).
`price` is `none` for the `price: null` of the failure branch. -/
structure FetchResult where
  name : List Char
  price : Option JSNum
  ok : Bool
deriving DecidableEq

/-- `fetchOne` (price-fetcher.js lines 44-58), after the network.
`outcome` is `none` when the fetch/parse threw or timed out, `some v` when
parsing produced the JS number `v`.  A non-finite or non-positive value
throws `"invalid value"`, caught into an `ok=false` result. -/
def fetchOne (name : List Char) (outcome : Option JSNum) : FetchResult :=
  match outcome with
  | some v => if jsValidPrice v then ⟨name, some v, true⟩ else ⟨name, none, false⟩
  | none => ⟨name, none, false⟩

/-- JS `Math.round` on a (finite) value: round half toward +∞. -/
def jsRound (q : ℚ) : ℤ := ⌊q + 1/2⌋

/-- `median` (lines 60-64): sort ascending, take the middle element for odd
length, the mean of the two middle elements for even length. -/
def median (arr : List ℚ) : ℚ :=
  let s := arr.mergeSort (fun a b => decide (a ≤ b))
  let m := s.length / 2
  if s.length % 2 = 1 then s.getD m 0 else (s.getD (m - 1) 0 + s.getD m 0) / 2

/-- `devBps` (lines 66-68): `Math.round(Math.abs(a - b) / b * 10_000)`. -/
def devBps (a b : ℚ) : ℤ := jsRound (|a - b| / b * 10000)

/-- Extract the rational of a stored price; the default is irrelevant on
every path that uses it (successful sources always carry a finite value). -/
def toQ : Option JSNum → ℚ
  | some (.fin q) => q
  | _ => 0

/-- `Math.max(...)` over a non-empty argument list (the only way the source
calls it); the `[]` case is unreachable there. -/
def listMax : List ℤ → ℤ
  | [] => 0
  | x :: xs => xs.foldl max x

/-- The two failure messages of `fetchAggregatedPrice`, with the
interpolated count. -/
inductive AggError where
  | insufficientSources (respondedCount : ℕ) : AggError
  | insufficientAgreement (validCount : ℕ) : AggError
deriving DecidableEq

/-- The object returned by `fetchAggregatedPrice`; `validSources` is absent
(`none`) on the override branch, which does not set that key. -/
structure AggResult where
  price : JSNum
  sources : List FetchResult
  validSources : Option (List FetchResult)
  spread : ℤ
  validCount : ℕ
  override : Bool
deriving DecidableEq

/-- `fetchAggregatedPrice` (lines 70-112).  `overridePrice` is the already
parsed value of the override string (`parseFloat` is host behaviour);
`results` are the four per-source outcomes of the concurrent fetch. -/
def fetchAggregatedPrice (overridePrice : Option JSNum) (results : List FetchResult) :
    Except AggError AggResult :=
  match overridePrice with
  | some p =>
      .ok { price := p, sources := [⟨"OVERRIDE".toList, some p, true⟩],
            validSources := none, spread := 0, validCount := 1, override := true }
  | none =>
      let successful := results.filter (·.ok)
      if successful.length < MIN_SOURCES then
        .error (.insufficientSources successful.length)
      else
        let med1 := median (successful.map (fun r => toQ r.price))
        let valid := successful.filter (fun r => devBps (toQ r.price) med1 ≤ MAX_DEVIATION_BPS)
        if valid.length < MIN_SOURCES then
          .error (.insufficientAgreement valid.length)
        else
          let finalPrices := valid.map (fun r => toQ r.price)
          let finalMedian := median finalPrices
          let spread := listMax (finalPrices.map (fun p => devBps p finalMedian))
          .ok { price := .fin finalMedian, sources := results, validSources := some valid,
                spread := spread, validCount := valid.length, override := false }

/-! Spec-side vocabulary for the aggregation claims. -/

/-- The sources that responded successfully. -/
def specSuccessful (results : List FetchResult) : List FetchResult :=
  results.filter (·.ok)

/-- The pre-filter median of all successful values. -/
def specPreMedian (results : List FetchResult) : ℚ :=
  median ((specSuccessful results).map (fun r => toQ r.price))

/-- The sources surviving the outlier filter against the pre-filter median. -/
def specValid (results : List FetchResult) : List FetchResult :=
  (specSuccessful results).filter
    (fun r => devBps (toQ r.price) (specPreMedian results) ≤ MAX_DEVIATION_BPS)

/-- Modelled from the spec: the error behaviour §4.1 prescribes — fail on
fewer than `MIN_SOURCES` responses, fail after outlier filtering on fewer
than `MIN_SOURCES` survivors, succeed otherwise. -/
def aggSpecOutcome (results : List FetchResult) : Except AggError Unit :=
  if (specSuccessful results).length < MIN_SOURCES then
    .error (.insufficientSources (specSuccessful results).length)
  else if (specValid results).length < MIN_SOURCES then
    .error (.insufficientAgreement (specValid results).length)
  else
    .ok ()

/-! ## Aggregation claims -/

/-- C3 (confirmed): without an override, aggregation fails in exactly two
cases — fewer than `MIN_SOURCES = 2` successful responses (error naming the
responded count), or fewer than `MIN_SOURCES = 2` survivors of the outlier
filter against the pre-filter median (the possible-manipulation error naming
the valid count); in every other case a consensus value is returned. -/
theorem C3_aggregation_failure_exactly_two_cases (results : List FetchResult) :
    (fetchAggregatedPrice none results).map (fun _ => ()) = aggSpecOutcome results := by
  simp only [fetchAggregatedPrice, aggSpecOutcome, specValid, specPreMedian, specSuccessful]
  split_ifs <;> rfl

/-- C9 (confirmed): the override path performs no validation — for every
parsed override value, including NaN, infinities, zero and negatives,
aggregation returns that value as the consensus with `validCount = 1` and
`spread = 0`, while the very same values would be rejected by `fetchOne`'s
finiteness/positivity check on the ordinary path. -/
theorem C9_override_bypasses_validation :
    (∀ (results : List FetchResult) (v : JSNum),
      fetchAggregatedPrice (some v) results =
        .ok { price := v, sources := [⟨"OVERRIDE".toList, some v, true⟩],
              validSources := none, spread := 0, validCount := 1, override := true }) ∧
    jsValidPrice .nan = false ∧
    jsValidPrice .posInf = false ∧
    jsValidPrice .negInf = false ∧
    jsValidPrice (.fin 0) = false ∧
    jsValidPrice (.fin (-5)) = false ∧
    (fetchOne ("Binance".toList) (some .nan)).ok = false ∧
    (fetchOne ("Binance".toList) (some (.fin (-5)))).ok = false := by
  exact ⟨fun _ _ => rfl, rfl, rfl, rfl, by decide, by decide, by decide, by decide⟩

/-- C2 counterexample: both of these two sources respond successfully
(`MIN_SOURCES` is met), yet aggregation raises the possible-manipulation
error instead of returning a consensus — each value deviates 3333 bps from
the pre-filter median 150, so the filter discards both. -/
def cexTwoDistant : List FetchResult :=
  [⟨"Binance".toList, some (.fin 100), true⟩, ⟨"Coinbase".toList, some (.fin 200), true⟩]

/-- C2 (counterexample): with exactly `MIN_SOURCES = 2` successful fetches
of 100 and 200, the claim promises a consensus, but the code throws the
insufficient-agreement error. -/
theorem C2_counterexample_two_distant_sources :
    (cexTwoDistant.filter (·.ok)).length = 2 ∧
    fetchAggregatedPrice none cexTwoDistant = .error (.insufficientAgreement 0) := by
  constructor
  · decide
  · have h1 : devBps 100 (median [100, 200]) = 3333 := by
      unfold devBps jsRound median
      norm_num [List.mergeSort]
    have h2 : devBps 200 (median [100, 200]) = 3333 := by
      unfold devBps jsRound median
      norm_num [List.mergeSort]
    unfold fetchAggregatedPrice
    simp [cexTwoDistant, List.filter, MIN_SOURCES, MAX_DEVIATION_BPS, toQ, h1, h2]

/-- C2 (amended): whenever at least `MIN_SOURCES` fetches succeed AND at
least `MIN_SOURCES` sources survive the outlier filter, aggregation returns
the median of the filtered values as the consensus price, keeps exactly the
successful sources within 200 bps of the pre-filter median, and reports
`spreadBps` as the maximum deviation of a filtered source from the final
median. -/
theorem C2_aggregation_consensus (results : List FetchResult)
    (h1 : MIN_SOURCES ≤ (specSuccessful results).length)
    (h2 : MIN_SOURCES ≤ (specValid results).length) :
    fetchAggregatedPrice none results =
      .ok { price := .fin (median ((specValid results).map (fun s => toQ s.price))),
            sources := results,
            validSources := some (specValid results),
            spread := listMax (((specValid results).map (fun s => toQ s.price)).map
              (fun p => devBps p (median ((specValid results).map (fun s => toQ s.price))))),
            validCount := (specValid results).length,
            override := false } ∧
    (∀ s ∈ specSuccessful results,
      (s ∈ specValid results ↔ devBps (toQ s.price) (specPreMedian results) ≤ MAX_DEVIATION_BPS)) := by
  simp only [specSuccessful, specValid, specPreMedian] at h1 h2 ⊢
  constructor
  · simp only [fetchAggregatedPrice]
    rw [if_neg (by omega), if_neg (by omega)]
  · intro s hs
    simp only [List.mem_filter] at hs ⊢
    simp [hs.1, hs.2]

/-- Concrete input for the C2 witness: three agreeing sources. -/
def witnessAgreeing : List FetchResult :=
  [⟨"Binance".toList, some (.fin 100), true⟩, ⟨"Coinbase".toList, some (.fin 100), true⟩,
   ⟨"Kraken".toList, some (.fin 100), true⟩]

/-- C2 witness: the amended consensus theorem applied to three agreeing
sources, each hypothesis discharged concretely. -/
theorem C2_aggregation_consensus_witness :
    fetchAggregatedPrice none witnessAgreeing =
      .ok { price := .fin (median ((specValid witnessAgreeing).map (fun s => toQ s.price))),
            sources := witnessAgreeing,
            validSources := some (specValid witnessAgreeing),
            spread := listMax (((specValid witnessAgreeing).map (fun s => toQ s.price)).map
              (fun p => devBps p (median ((specValid witnessAgreeing).map (fun s => toQ s.price))))),
            validCount := (specValid witnessAgreeing).length,
            override := false } ∧
    (∀ s ∈ specSuccessful witnessAgreeing,
      (s ∈ specValid witnessAgreeing ↔
        devBps (toQ s.price) (specPreMedian witnessAgreeing) ≤ MAX_DEVIATION_BPS)) :=
  C2_aggregation_consensus witnessAgreeing (by decide)
    (by
      have hd : devBps 100 (median [100, 100, 100]) = 0 := by
        unfold devBps jsRound median
        norm_num [List.mergeSort]
      simp [specValid, specSuccessful, specPreMedian, witnessAgreeing, toQ, hd,
        MAX_DEVIATION_BPS, MIN_SOURCES, List.filter])

/-! ### groth16-prover.js — salt sampling (lines 73-96) -/

/-- BN128 field modulus (groth16-prover.js line 74). -/
def FIELD_MODULUS : ℕ :=
  21888242871839275222246405745257275088548364400416034343698204186575808495617

/-- Big-endian value of a byte list, as `BigInt("0x" + buf.toString("hex"))`
reads a `Buffer`. -/
def bytesToNat (l : List ℕ) : ℕ := l.foldl (fun a b => a * 256 + b) 0

/-- The do/while rejection loop of `generateProof` (lines 93-96): take the
value of 31 random bytes, resampling while it is `≥ FIELD_MODULUS`.
`draws j` is the j-th output of `crypto.randomBytes(31)`; `fuel` bounds the
loop for totality (one unit is always enough, as proved below). -/
def genSaltAux (draws : ℕ → List ℕ) : ℕ → ℕ → Option ℕ
  | 0, _ => none
  | fuel + 1, j =>
      let salt := bytesToNat (draws j)
      if FIELD_MODULUS ≤ salt then genSaltAux draws fuel (j + 1) else some salt

def genSalt (draws : ℕ → List ℕ) (fuel : ℕ) : Option ℕ := genSaltAux draws fuel 0

/-- A valid output stream of `crypto.randomBytes(31)`: each draw is 31
bytes, each byte below 256. -/
def ValidDraws (draws : ℕ → List ℕ) : Prop :=
  ∀ j, (draws j).length = 31 ∧ ∀ b ∈ draws j, b < 256

theorem bytesToNat_aux_bound (l : List ℕ) :
    ∀ a K : ℕ, 0 < K → a < K → (∀ b ∈ l, b < 256) →
      l.foldl (fun a b => a * 256 + b) a < K * 256 ^ l.length := by
  induction l with
  | nil => intro a K hK ha _; simpa using ha
  | cons x xs ih =>
      intro a K hK ha hb
      have hx : x < 256 := hb x (List.mem_cons_self x xs)
      have hstep : a * 256 + x < K * 256 := by
        calc a * 256 + x < a * 256 + 256 := by omega
        _ = (a + 1) * 256 := by ring
        _ ≤ K * 256 := Nat.mul_le_mul_right 256 ha
      have := ih (a * 256 + x) (K * 256) (by positivity) hstep
        (fun b hbm => hb b (List.mem_cons_of_mem x hbm))
      calc xs.foldl (fun a b => a * 256 + b) (a * 256 + x) < K * 256 * 256 ^ xs.length := this
      _ = K * 256 ^ (x :: xs).length := by
            simp [List.length_cons, pow_succ]
            ring

/-- A 31-byte draw is below `2 ^ 248`. -/
theorem bytesToNat_bound (l : List ℕ) (hlen : l.length = 31) (hb : ∀ b ∈ l, b < 256) :
    bytesToNat l < 2 ^ 248 := by
  have := bytesToNat_aux_bound l 0 1 one_pos one_pos hb
  have h256 : (256 : ℕ) ^ 31 = 2 ^ 248 := by norm_num
  simpa [bytesToNat, hlen, h256] using this

/-- The comment in the source is right: 248 bits stay below the modulus. -/
theorem two_pow_248_lt_FIELD_MODULUS : 2 ^ 248 < FIELD_MODULUS := by norm_num [FIELD_MODULUS]

/-- Any salt the loop emits is the value of one of the draws. -/
theorem genSaltAux_some (draws : ℕ → List ℕ) :
    ∀ fuel j s, genSaltAux draws fuel j = some s → ∃ i, s = bytesToNat (draws i) := by
  intro fuel
  induction fuel with
  | zero => intro j s h; simp [genSaltAux] at h
  | succ n ih =>
      intro j s h
      rw [genSaltAux] at h
      split at h
      · exact ih (j + 1) s h
      · exact ⟨j, by simpa using h.symm⟩

/-- Big-endian byte expansion of `n`, `k` bytes wide. -/
def natToBytes : ℕ → ℕ → List ℕ
  | 0, _ => []
  | k + 1, n => natToBytes k (n / 256) ++ [n % 256]

theorem natToBytes_length : ∀ k n, (natToBytes k n).length = k := by
  intro k
  induction k with
  | zero => intro n; rfl
  | succ m ih => intro n; simp [natToBytes, ih]

theorem natToBytes_lt : ∀ k n, ∀ b ∈ natToBytes k n, b < 256 := by
  intro k
  induction k with
  | zero => intro n b hb; simp [natToBytes] at hb
  | succ m ih =>
      intro n b hb
      simp only [natToBytes, List.mem_append, List.mem_singleton] at hb
      rcases hb with h | h
      · exact ih _ b h
      · subst h; exact Nat.mod_lt _ (by norm_num)

theorem bytesToNat_append_singleton (xs : List ℕ) (b : ℕ) :
    bytesToNat (xs ++ [b]) = bytesToNat xs * 256 + b := by
  simp [bytesToNat, List.foldl_append]

theorem bytesToNat_natToBytes : ∀ k n, bytesToNat (natToBytes k n) = n % 256 ^ k := by
  intro k
  induction k with
  | zero => intro n; simp [natToBytes, bytesToNat, Nat.mod_one]
  | succ m ih =>
      intro n
      rw [natToBytes, bytesToNat_append_singleton, ih]
      have h : (256 : ℕ) ^ (m + 1) = 256 * 256 ^ m := by ring
      rw [h, Nat.mod_mul]
      ring

/-! ## Salt sampling claim -/

/-- C4 (amended): the salt is the value of the first 31-byte random draw —
the rejection guard never fires because `2 ^ 248 < FIELD_MODULUS` — so every
generated salt is below `2 ^ 248` (hence below `FIELD_MODULUS`), and exactly
the integers in `[0, 2 ^ 248)` are possible salt values. -/
theorem C4_salt_sampling (draws : ℕ → List ℕ) (fuel : ℕ) (hd : ValidDraws draws) :
    genSalt draws (fuel + 1) = some (bytesToNat (draws 0)) ∧
    bytesToNat (draws 0) < 2 ^ 248 ∧
    2 ^ 248 < FIELD_MODULUS ∧
    (∀ s : ℕ, s < 2 ^ 248 →
      ∃ ds : ℕ → List ℕ, ValidDraws ds ∧ genSalt ds 1 = some s) := by
  have hb := bytesToNat_bound _ (hd 0).1 (hd 0).2
  refine ⟨?_, hb, two_pow_248_lt_FIELD_MODULUS, ?_⟩
  · rw [genSalt, genSaltAux]
    have : ¬ FIELD_MODULUS ≤ bytesToNat (draws 0) := by
      have := two_pow_248_lt_FIELD_MODULUS
      omega
    simp [this]
  · intro s hs
    refine ⟨fun _ => natToBytes 31 s, fun j => ⟨natToBytes_length 31 s, natToBytes_lt 31 s⟩, ?_⟩
    have hv : bytesToNat (natToBytes 31 s) = s := by
      rw [bytesToNat_natToBytes]
      have h256 : (256 : ℕ) ^ 31 = 2 ^ 248 := by norm_num
      rw [h256]
      exact Nat.mod_eq_of_lt hs
    rw [genSalt, genSaltAux]
    have : ¬ FIELD_MODULUS ≤ bytesToNat (natToBytes 31 s) := by
      rw [hv]
      have := two_pow_248_lt_FIELD_MODULUS
      omega
    simp only [hv] at this ⊢
    rw [if_neg this]

/-- C4 (counterexample): `2 ^ 248` lies inside `[0, FIELD_MODULUS)`, yet no
sequence of 31-byte random draws can ever make `generateProof` produce it as
the salt — the sampling is not onto `[0, FIELD_MODULUS)`. -/
theorem C4_counterexample_unreachable_salt :
    2 ^ 248 < FIELD_MODULUS ∧
    (∃ (draws : ℕ → List ℕ) (fuel : ℕ),
      ValidDraws draws ∧ genSalt draws fuel = some (2 ^ 248)) = False := by
  refine ⟨two_pow_248_lt_FIELD_MODULUS, eq_false ?_⟩
  rintro ⟨draws, fuel, hd, hs⟩
  obtain ⟨i, hi⟩ := genSaltAux_some draws fuel 0 _ hs
  have hb := bytesToNat_bound _ (hd i).1 (hd i).2
  rw [← hi] at hb
  exact lt_irrefl _ hb

/-- A concrete all-zero draw stream for the C4 witness. -/
def zeroDraws : ℕ → List ℕ := fun _ => List.replicate 31 0

/-- C4 witness: the sampling theorem applied to the all-zero draw stream. -/
theorem C4_salt_sampling_witness :
    genSalt zeroDraws 1 = some (bytesToNat (zeroDraws 0)) ∧
    bytesToNat (zeroDraws 0) < 2 ^ 248 ∧
    2 ^ 248 < FIELD_MODULUS ∧
    (∀ s : ℕ, s < 2 ^ 248 →
      ∃ ds : ℕ → List ℕ, ValidDraws ds ∧ genSalt ds 1 = some s) :=
  C4_salt_sampling zeroDraws 0 (fun j => by simp [zeroDraws])

/-! ### greenfield/client.js — EC checksum scheme (lines 38-144)

SHA-256 itself is host crypto; it enters as an abstract `hash` function, with
the 32-byte output size as a hypothesis where a claim mentions it. -/

def EC_DATA : ℕ := 4

def EC_PARITY : ℕ := 2

/-- `Math.ceil(bytes.length / EC_DATA)` (line 123). -/
def shardSize (len : ℕ) : ℕ := (len + (EC_DATA - 1)) / EC_DATA

/-- `Buffer.alloc(shardSize, 0)` then `bytes.copy(...)`: the copied slice,
zero-padded to the shard size. -/
def padTo (sz : ℕ) (l : List ℕ) : List ℕ := l ++ List.replicate (sz - l.length) 0

/-- The i-th EC data shard (lines 126-131): bytes `[i*shardSize, (i+1)*shardSize)`
of the payload, zero-padded. -/
def dataShard (bytes : List ℕ) (i : ℕ) : List ℕ :=
  padTo (shardSize bytes.length)
    ((bytes.drop (i * shardSize bytes.length)).take (shardSize bytes.length))

/-- Byte-wise XOR of two equal-length buffers. -/
def xorBytes (a b : List ℕ) : List ℕ := List.zipWith (· ^^^ ·) a b

/-- The XOR accumulation loop of lines 134-138: start from a zero buffer and
fold each data shard in. -/
def parityBase (bytes : List ℕ) : List ℕ :=
  (List.range EC_DATA).foldl (fun acc i => xorBytes acc (dataShard bytes i))
    (List.replicate (shardSize bytes.length) 0)

/-- The p-th parity shard: the XOR of the data shards, with
`parity[0] ^= (p & 0xff)` applied for `p > 0` (line 139); the out-of-range
write on an empty buffer is a no-op, matched by `List.set` on `[]`. -/
def parityShard (bytes : List ℕ) (p : ℕ) : List ℕ :=
  let base := parityBase bytes
  if p = 0 then base else base.set 0 ((base.headD 0) ^^^ (p % 256))

/-- `manualChecksums` (lines 116-144): hash of the full payload, then of the
4 data shards, then of the 2 parity shards, in push order. -/
def manualChecksums (hash : List ℕ → List ℕ) (bytes : List ℕ) : List (List ℕ) :=
  (hash bytes :: (List.range EC_DATA).map (fun i => hash (dataShard bytes i)))
    ++ (List.range EC_PARITY).map (fun p => hash (parityShard bytes p))

/-- Second SDK attempt of `computeExpectChecksums` (`getCheckSums`, lines
76-81): accept the SDK result only when it has exactly 7 entries. -/
def computeFallback (sdk2 : Option (List (List ℕ))) (hash : List ℕ → List ℕ)
    (bytes : List ℕ) : List (List ℕ) :=
  match sdk2 with
  | some cs => if cs.length = 7 then cs else manualChecksums hash bytes
  | none => manualChecksums hash bytes

/-- `computeExpectChecksums` (lines 62-88): try `NodeAdapterModule.checksumObj`,
then `getCheckSums`, each result accepted only with exactly 7 entries;
otherwise compute the manual EC checksums.  `none` models an absent/throwing
SDK helper. -/
def computeExpectChecksums (sdk1 sdk2 : Option (List (List ℕ))) (hash : List ℕ → List ℕ)
    (bytes : List ℕ) : List (List ℕ) :=
  match sdk1 with
  | some cs => if cs.length = 7 then cs else computeFallback sdk2 hash bytes
  | none => computeFallback sdk2 hash bytes

theorem dataShard_length (bytes : List ℕ) (i : ℕ) :
    (dataShard bytes i).length = shardSize bytes.length := by
  simp only [dataShard, padTo, List.length_append, List.length_replicate, List.length_take,
    List.length_drop]
  omega

theorem padTo_getD (sz : ℕ) (l : List ℕ) (j : ℕ) :
    (padTo sz l).getD j 0 = l.getD j 0 := by
  unfold padTo
  rcases lt_or_ge j l.length with h | h
  · rw [List.getD_append _ _ _ _ h]
  · rw [List.getD_eq_default _ _ h]
    rcases lt_or_ge j (l ++ List.replicate (sz - l.length) 0).length with h2 | h2
    · rw [List.getD_eq_getElem _ _ h2]
      rw [List.getElem_append_right (by omega)]
      simp
    · rw [List.getD_eq_default _ _ h2]

/-- Within the shard size, shard `i` holds byte `i*shardSize + j` of the
payload (or the zero padding past its end). -/
theorem dataShard_getD (bytes : List ℕ) (i j : ℕ) (hj : j < shardSize bytes.length) :
    (dataShard bytes i).getD j 0 = bytes.getD (i * shardSize bytes.length + j) 0 := by
  unfold dataShard
  rw [padTo_getD]
  set sz := shardSize bytes.length with hsz
  rcases lt_or_ge (i * sz + j) bytes.length with h | h
  · have htake : j < ((bytes.drop (i * sz)).take sz).length := by
      simp [List.length_take, List.length_drop]
      omega
    rw [List.getD_eq_getElem _ _ htake]
    rw [List.getElem_take, List.getElem_drop]
    rw [List.getD_eq_getElem _ _ h]
  · have htake : ((bytes.drop (i * sz)).take sz).length ≤ j := by
      simp [List.length_take, List.length_drop]
      omega
    rw [List.getD_eq_default _ _ htake, List.getD_eq_default _ _ h]

theorem xorBytes_zero (l : List ℕ) (n : ℕ) (h : l.length = n) :
    xorBytes (List.replicate n 0) l = l := by
  subst h
  induction l with
  | nil => rfl
  | cons x xs ih =>
      show List.zipWith _ (0 :: List.replicate xs.length 0) (x :: xs) = x :: xs
      simp only [List.zipWith]
      rw [show (0 : ℕ) ^^^ x = x from Nat.zero_xor x]
      exact congrArg (x :: ·) ih

/-- The parity accumulation is the plain XOR of the four data shards. -/
theorem parityBase_eq (bytes : List ℕ) :
    parityBase bytes =
      xorBytes (xorBytes (xorBytes (dataShard bytes 0) (dataShard bytes 1)) (dataShard bytes 2))
        (dataShard bytes 3) := by
  have h0 : xorBytes (List.replicate (shardSize bytes.length) 0) (dataShard bytes 0)
      = dataShard bytes 0 := xorBytes_zero _ _ (dataShard_length bytes 0)
  show List.foldl _ _ (List.range 4) = _
  rw [show List.range 4 = [0, 1, 2, 3] from rfl]
  simp [List.foldl, h0]

/-! ## Checksum claim -/

/-- C6 (confirmed): for every payload, the manual checksum computation emits
exactly 7 fixed-size (32-byte) checksums, in order: the hash of the whole
payload, the hashes of the 4 equal-sized zero-padded data shards (shard `i`
holding bytes `i*shardSize + j` of the payload), and the hashes of the 2
parity shards obtained by byte-wise XOR of the data shards (the second with
its first byte additionally XORed with the shard index); the
`computeExpectChecksums` wrapper returns 7 entries for every SDK outcome. -/
theorem C6_seven_checksums (hash : List ℕ → List ℕ) (bytes : List ℕ)
    (hlen : ∀ l, (hash l).length = 32) :
    (manualChecksums hash bytes).length = 7 ∧
    (∀ c ∈ manualChecksums hash bytes, c.length = 32) ∧
    manualChecksums hash bytes =
      [hash bytes,
       hash (dataShard bytes 0), hash (dataShard bytes 1),
       hash (dataShard bytes 2), hash (dataShard bytes 3),
       hash (parityShard bytes 0), hash (parityShard bytes 1)] ∧
    (∀ i, (dataShard bytes i).length = shardSize bytes.length) ∧
    (∀ i j : ℕ, j < shardSize bytes.length →
      (dataShard bytes i).getD j 0 = bytes.getD (i * shardSize bytes.length + j) 0) ∧
    parityShard bytes 0 =
      xorBytes (xorBytes (xorBytes (dataShard bytes 0) (dataShard bytes 1)) (dataShard bytes 2))
        (dataShard bytes 3) ∧
    parityShard bytes 1 =
      (parityShard bytes 0).set 0 (((parityShard bytes 0).headD 0) ^^^ 1) ∧
    (∀ s1 s2, (computeExpectChecksums s1 s2 hash bytes).length = 7) := by
  have hexp : manualChecksums hash bytes =
      [hash bytes,
       hash (dataShard bytes 0), hash (dataShard bytes 1),
       hash (dataShard bytes 2), hash (dataShard bytes 3),
       hash (parityShard bytes 0), hash (parityShard bytes 1)] := by
    show (_ :: (List.range 4).map _) ++ (List.range 2).map _ = _
    rw [show List.range 4 = [0, 1, 2, 3] from rfl, show List.range 2 = [0, 1] from rfl]
    rfl
  refine ⟨by rw [hexp]; rfl, ?_, hexp, dataShard_length bytes, dataShard_getD bytes, ?_, ?_, ?_⟩
  · intro c hc
    rw [hexp] at hc
    simp only [List.mem_cons, List.not_mem_nil, or_false] at hc
    rcases hc with h | h | h | h | h | h | h <;> (subst h; exact hlen _)
  · show parityBase bytes = _
    exact parityBase_eq bytes
  · have h1 : parityShard bytes 1 =
        (parityBase bytes).set 0 (((parityBase bytes).headD 0) ^^^ (1 % 256)) := rfl
    have h0 : parityShard bytes 0 = parityBase bytes := rfl
    rw [h1, h0]
  · intro s1 s2
    have hm : (manualChecksums hash bytes).length = 7 := by rw [hexp]; rfl
    have hf : (computeFallback s2 hash bytes).length = 7 := by
      unfold computeFallback
      match s2 with
      | none => exact hm
      | some cs =>
          by_cases h : cs.length = 7
          · simp [h]
          · simp [h, hm]
    unfold computeExpectChecksums
    match s1 with
    | none => exact hf
    | some cs =>
        by_cases h : cs.length = 7
        · simp [h]
        · simp [h, hf]

/-- A stand-in 32-byte hash for the C6 witness. -/
def constHash : List ℕ → List ℕ := fun l => List.replicate 32 (l.length % 256)

/-- C6 witness: the checksum theorem at a concrete 5-byte payload and a
concrete 32-byte hash function. -/
theorem C6_seven_checksums_witness :
    (manualChecksums constHash [1, 2, 3, 4, 5]).length = 7 ∧
    (∀ c ∈ manualChecksums constHash [1, 2, 3, 4, 5], c.length = 32) ∧
    manualChecksums constHash [1, 2, 3, 4, 5] =
      [constHash [1, 2, 3, 4, 5],
       constHash (dataShard [1, 2, 3, 4, 5] 0), constHash (dataShard [1, 2, 3, 4, 5] 1),
       constHash (dataShard [1, 2, 3, 4, 5] 2), constHash (dataShard [1, 2, 3, 4, 5] 3),
       constHash (parityShard [1, 2, 3, 4, 5] 0), constHash (parityShard [1, 2, 3, 4, 5] 1)] ∧
    (∀ i, (dataShard [1, 2, 3, 4, 5] i).length = shardSize (5 : ℕ)) ∧
    (∀ i j : ℕ, j < shardSize (5 : ℕ) →
      (dataShard [1, 2, 3, 4, 5] i).getD j 0 =
        List.getD [1, 2, 3, 4, 5] (i * shardSize (5 : ℕ) + j) 0) ∧
    parityShard [1, 2, 3, 4, 5] 0 =
      xorBytes (xorBytes (xorBytes (dataShard [1, 2, 3, 4, 5] 0) (dataShard [1, 2, 3, 4, 5] 1))
        (dataShard [1, 2, 3, 4, 5] 2)) (dataShard [1, 2, 3, 4, 5] 3) ∧
    parityShard [1, 2, 3, 4, 5] 1 =
      (parityShard [1, 2, 3, 4, 5] 0).set 0 (((parityShard [1, 2, 3, 4, 5] 0).headD 0) ^^^ 1) ∧
    (∀ s1 s2, (computeExpectChecksums s1 s2 constHash [1, 2, 3, 4, 5]).length = 7) :=
  C6_seven_checksums constHash [1, 2, 3, 4, 5] (fun l => by simp [constHash])

/-! ### agent.js — proof serialization (lines 155-160) -/

structure ProofObj where
  pi_a : ℕ → ℕ
  pi_b : ℕ → ℕ → ℕ
  pi_c : ℕ → ℕ

def proof_a (p : ProofObj) : List ℕ := [p.pi_a 0, p.pi_a 1]

def proof_b (p : ProofObj) : List (List ℕ) :=
  [[p.pi_b 0 1, p.pi_b 0 0], [p.pi_b 1 1, p.pi_b 1 0]]

def proof_c (p : ProofObj) : List ℕ := [p.pi_c 0, p.pi_c 1]

/-- The proof engine's native row order for the second proof element. -/
def nativeRowB (p : ProofObj) (i : ℕ) : List ℕ := [p.pi_b i 0, p.pi_b i 1]

/-- The `proofData` object produced by `generateProof` (groth16-prover lines
131-143), restricted to the fields the agent and the archive consume.
`price` and `timestamp` are decimal strings there (`toString()`). -/
structure ProofData where
  proofObj : ProofObj
  publicSignals : List ℕ
  commitment : List Char
  price : List Char
  timestamp : List Char
  salt : ℕ

/-! ### Error taxonomy of one agent cycle -/

inductive AgentError where
  | rpcUnreachable : AgentError
  | aggregation (e : AggError) : AgentError
  | proveFailed : AgentError
  | localVerifyFailed : AgentError
  | localWriteFailed : AgentError
  | chainReverted : AgentError
  | networkSubmit : AgentError
  | waitFailed : AgentError
deriving DecidableEq

/-! ### greenfield/client.js — ensureBucket and uploadProof control flow -/

/-- Environment for one `ensureBucket` call: SDK availability, the
`headBucket` probe, the storage-provider lookup, and the create+broadcast. -/
structure BucketEnv where
  clientAvailable : Bool
  headOutcome : Except AgentError Unit
  spAddr : Option (List Char)
  createOutcome : Except AgentError Unit

/-- `ensureBucket` (client.js lines 211-251).  Every failure of a remote
operation is caught and turned into `false`; the `Except` return type
records that no path raises. -/
def ensureBucket (env : BucketEnv) : Except AgentError Bool :=
  if env.clientAvailable = false then .ok false
  else
    match env.headOutcome with
    | .ok _ => .ok true
    | .error _ =>
        match env.spAddr with
        | none => .ok false
        | some _ =>
            match env.createOutcome with
            | .ok _ => .ok true
            | .error _ => .ok false

/-- Environment for the remote half of one `uploadProof` call. -/
structure RemoteEnv where
  clientAvailable : Bool
  spAddr : Option (List Char)
  createOutcome : Except AgentError Unit
  uploadOutcome : Except AgentError Unit

/-- Environment for one `uploadProof` call: the unguarded local
`fs.writeFileSync` plus the guarded remote half. -/
structure ArchiveEnv where
  localWrite : Except AgentError Unit
  remote : RemoteEnv

inductive ArcEvent where
  | localWrite : ArcEvent
  | remoteCreate : ArcEvent
  | remoteUpload : ArcEvent
deriving DecidableEq

/-- The value `uploadProof` returns (client.js lines 348-355), restricted to
the fields its callers consume. -/
structure ArchiveOut where
  objectName : List Char
  greenfieldRef : List Char
  onGreenfield : Bool
deriving DecidableEq

/-- `objectName` (client.js line 256):
`veris-proof-<timestamp>-<txHash.slice(0,10)>.json`. -/
def objectNameOf (ts txHash : List Char) : List Char :=
  "veris-proof-".toList ++ ts ++ ['-'] ++ txHash.take 10 ++ ".json".toList

/-- The try/catch-guarded remote section of `uploadProof` (lines 294-346):
reports whether the object landed remotely and which remote calls ran; a
missing SP address throws before `createObject`, a create or upload failure
aborts the rest, and every failure is caught into `onGreenfield = false`. -/
def remoteAttempt (env : RemoteEnv) : Bool × List ArcEvent :=
  if env.clientAvailable then
    match env.spAddr with
    | none => (false, [])
    | some _ =>
        match env.createOutcome with
        | .error _ => (false, [.remoteCreate])
        | .ok _ =>
            match env.uploadOutcome with
            | .error _ => (false, [.remoteCreate, .remoteUpload])
            | .ok _ => (true, [.remoteCreate, .remoteUpload])
  else (false, [])

/-- Spec-side: the remote half succeeded end to end. -/
def remoteAllOk (env : RemoteEnv) : Bool :=
  env.clientAvailable && env.spAddr.isSome &&
    env.createOutcome.toBool && env.uploadOutcome.toBool

/-- `uploadProof` (client.js lines 255-355): build the object name, derive
`greenfieldRef = keccak256(objectName)`, always write locally first (outside
any try — a local failure propagates), then attempt the remote upload with
all failures caught. -/
def uploadProofT (keccak : List Char → List Char) (pd : ProofData) (txHash : List Char)
    (env : ArchiveEnv) : Except AgentError ArchiveOut × List ArcEvent :=
  let objectName := objectNameOf pd.timestamp txHash
  let greenfieldRef := keccak objectName
  match env.localWrite with
  | .error e => (.error e, [])
  | .ok _ =>
      let r := remoteAttempt env.remote
      (.ok ⟨objectName, greenfieldRef, r.1⟩, .localWrite :: r.2)

theorem remoteAttempt_fst (env : RemoteEnv) : (remoteAttempt env).1 = remoteAllOk env := by
  unfold remoteAttempt remoteAllOk
  rcases env with ⟨ca, sp, co, uo⟩
  cases ca <;> cases sp <;> cases co <;> cases uo <;> rfl

/-! ### agent.js — retry (lines 82-92) and one submission cycle (120-238) -/

/-- `retry(fn, attempts)`: attempt `i` (1-based) runs `fn i`; the error of
the final attempt propagates, earlier errors sleep `1000 * 2^i` ms and
continue.  Returns the result, the number of calls made and the delays
slept.  `remaining` counts the attempts after the current one. -/
def retryAux {E α : Type} (fn : ℕ → Except E α) : ℕ → ℕ → Except E α × ℕ × List ℕ
  | i, 0 => (fn i, 1, [])
  | i, r + 1 =>
      match fn i with
      | .ok a => (.ok a, 1, [])
      | .error _ =>
          let rest := retryAux fn (i + 1) r
          (rest.1, rest.2.1 + 1, 1000 * 2 ^ i :: rest.2.2)

def retry {E α : Type} (fn : ℕ → Except E α) (attempts : ℕ) : Except E α × ℕ × List ℕ :=
  retryAux fn 1 (attempts - 1)

/-- The argument tuple of the on-chain `submitPriceWithProof` call
(agent.js lines 177-189). -/
structure SubmitArgs where
  price : List Char
  timestamp : List Char
  commitment : List Char
  a : List ℕ
  b : List (List ℕ)
  c : List ℕ
  ref : List Char
deriving DecidableEq

/-- Observable steps of one `submitOnce` cycle, in execution order. -/
inductive Event where
  | rpcAttempt : Event
  | fetchAttempt : Event
  | proveAttempt : Event
  | localVerify (ok : Bool) : Event
  | archivePre : Event
  | chainSubmit (args : SubmitArgs) : Event
  | txWait : Event
  | archivePost : Event
deriving DecidableEq

/-- The `result` object of a successful cycle (agent.js lines 204-214),
restricted to the claim-relevant fields. -/
structure SubmissionRecord where
  priceUSD : JSNum
  commitment : List Char
  txHash : List Char
  block : ℕ
  zkVerified : Bool
  greenfieldRef : List Char
  onGreenfield : Bool
deriving DecidableEq

/-- Environment of one cycle: outcomes of every external effect, indexed by
attempt number where the agent retries. -/
structure AgentEnv where
  providerOutcome : ℕ → Except AgentError Unit
  fetchResults : ℕ → List FetchResult
  proveOutcome : ℕ → Except AgentError ProofData
  verifyOk : Bool
  bucketEnv : BucketEnv
  preArchive : ArchiveEnv
  submitOutcome : ℕ → Except AgentError (List Char)
  waitOutcome : Except AgentError ℕ
  postArchive : ArchiveEnv

/-- Step 2 of the cycle: `fetchAggregatedPrice(overridePrice)` on the i-th
attempt's source outcomes, its `AggError` propagating as a thrown error. -/
def fetchStep (ov : Option JSNum) (env : AgentEnv) (i : ℕ) : Except AgentError AggResult :=
  match fetchAggregatedPrice ov (env.fetchResults i) with
  | .ok r => .ok r
  | .error e => .error (.aggregation e)

/-- The `"pending-" + proofData.timestamp` placeholder passed as the txHash
argument of the pre-submission archive (agent.js line 167). -/
def pendingTag (ts : List Char) : List Char := "pending-".toList ++ ts

/-- The fallback reference preimage `veris-proof-<timestamp>` used when the
pre-submission archive throws (agent.js line 171). -/
def fallbackName (ts : List Char) : List Char := "veris-proof-".toList ++ ts

/-- `submitOnce` (agent.js lines 120-238): provider retry (3), aggregated
fetch retry (3), proof generation retry (2), the local verify gate, the
caught pre-submission archive with keccak fallback, the on-chain submit
retry (3), the confirmation wait, and the swallowed post-submission
re-archive.  Returns the cycle outcome and the event trace. -/
def submitOnce (keccak : List Char → List Char) (ov : Option JSNum) (env : AgentEnv) :
    Except AgentError SubmissionRecord × List Event :=
  match retry env.providerOutcome 3 with
  | (.error e, n, _) => (.error e, List.replicate n .rpcAttempt)
  | (.ok _, n1, _) =>
    let tr1 := List.replicate n1 Event.rpcAttempt
    match retry (fetchStep ov env) 3 with
    | (.error e, n, _) => (.error e, tr1 ++ List.replicate n .fetchAttempt)
    | (.ok priceResult, n2, _) =>
      let tr2 := tr1 ++ List.replicate n2 Event.fetchAttempt
      match retry env.proveOutcome 2 with
      | (.error e, n, _) => (.error e, tr2 ++ List.replicate n .proveAttempt)
      | (.ok pd, n3, _) =>
        let tr3 := tr2 ++ List.replicate n3 Event.proveAttempt
        if env.verifyOk = false then
          (.error .localVerifyFailed, tr3 ++ [.localVerify false])
        else
          let tr4 := tr3 ++ [Event.localVerify true]
          let _bucket := ensureBucket env.bucketEnv
          let gf : List Char × Bool :=
            match (uploadProofT keccak pd (pendingTag pd.timestamp) env.preArchive).1 with
            | .ok out => (out.greenfieldRef, out.onGreenfield)
            | .error _ => (keccak (fallbackName pd.timestamp), false)
          let tr5 := tr4 ++ [Event.archivePre]
          let args : SubmitArgs :=
            ⟨pd.price, pd.timestamp, pd.commitment,
             proof_a pd.proofObj, proof_b pd.proofObj, proof_c pd.proofObj, gf.1⟩
          match retry env.submitOutcome 3 with
          | (.error e, n, _) => (.error e, tr5 ++ List.replicate n (.chainSubmit args))
          | (.ok txHash, n6, _) =>
            let tr6 := tr5 ++ List.replicate n6 (Event.chainSubmit args)
            match env.waitOutcome with
            | .error e => (.error e, tr6 ++ [.txWait])
            | .ok blockNum =>
              let tr7 := tr6 ++ [Event.txWait]
              let _post := uploadProofT keccak pd txHash env.postArchive
              (.ok ⟨priceResult.price, pd.commitment, txHash, blockNum, true, gf.1, gf.2⟩,
               tr7 ++ [Event.archivePost])

/-- C1 (confirmed): in every execution of `submitOnce`, the on-chain submit
call is reached only when the local `verifyProof` returned true — a
`chainSubmit` event in the trace implies `verifyOk = true` and a preceding
successful local verification; and when local verification ran and returned
false, the cycle fails with the local-verification error and no submit is
ever attempted. -/
theorem C1_no_submit_without_local_verify (keccak : List Char → List Char) (ov : Option JSNum) (env : AgentEnv) :
    (∀ args : SubmitArgs, Event.chainSubmit args ∈ (submitOnce keccak ov env).2 →
      env.verifyOk = true ∧ Event.localVerify true ∈ (submitOnce keccak ov env).2) ∧
    (env.verifyOk = false →
      (∀ args : SubmitArgs, Event.chainSubmit args ∉ (submitOnce keccak ov env).2) ∧
      (Event.localVerify false ∈ (submitOnce keccak ov env).2 →
        (submitOnce keccak ov env).1 = .error .localVerifyFailed)) := by
  simp only [submitOnce]
  split
  · simp [List.mem_replicate]
  · split
    · simp [List.mem_append, List.mem_replicate]
    · split
      · simp [List.mem_append, List.mem_replicate]
      · split
        · simp [List.mem_append, List.mem_replicate]
        · rename_i hv
          have hvt : env.verifyOk = true := by
            revert hv
            cases env.verifyOk <;> simp
          split
          · simp [hvt, List.mem_append, List.mem_replicate]
          · split
            · simp [hvt, List.mem_append, List.mem_replicate]
            · simp [hvt, List.mem_append, List.mem_replicate]

/-- C8 (confirmed): the serialized second proof element stores each row's
two sub-coordinates in swapped (reversed) order relative to the engine's
native `pi_b` output, while the first and third elements are passed in
native order. -/
theorem C8_proof_serialization_swaps_b (p : ProofObj) :
    proof_b p = [(nativeRowB p 0).reverse, (nativeRowB p 1).reverse] ∧
    proof_b p = [[p.pi_b 0 1, p.pi_b 0 0], [p.pi_b 1 1, p.pi_b 1 0]] ∧
    proof_a p = [p.pi_a 0, p.pi_a 1] ∧
    proof_c p = [p.pi_c 0, p.pi_c 1] :=
  ⟨rfl, rfl, rfl, rfl⟩

/-- C7 (confirmed): whenever the local write succeeds, `uploadProof`
returns a valid entry for every remote outcome — the reference is the
deterministic keccak of the object name, `onGreenfield` is true exactly when
the whole remote path succeeded, and the local write precedes any remote
call in the trace; `ensureBucket` never raises either. -/
theorem C7_archive_never_raises (keccak : List Char → List Char) (pd : ProofData) (txHash : List Char)
    (env : ArchiveEnv) (h : env.localWrite = .ok ()) :
    uploadProofT keccak pd txHash env =
      (.ok ⟨objectNameOf pd.timestamp txHash, keccak (objectNameOf pd.timestamp txHash),
            remoteAllOk env.remote⟩,
       .localWrite :: (remoteAttempt env.remote).2) ∧
    (∀ benv : BucketEnv, ∃ b, ensureBucket benv = .ok b) := by
  constructor
  · simp only [uploadProofT, h, remoteAttempt_fst]
  · intro benv
    rcases benv with ⟨ca, ho, sp, co⟩
    cases ca <;> cases ho <;> cases sp <;> cases co <;> exact ⟨_, rfl⟩

-- ── C5 environments ──

def remoteFailEnv : RemoteEnv := ⟨false, none, .ok (), .ok ()⟩

def envSubmitAlwaysFails (fr : ℕ → List FetchResult) (pd : ProofData) (benv : BucketEnv)
    (arc arc2 : ArchiveEnv) (w : Except AgentError ℕ) (e : AgentError) : AgentEnv :=
  { providerOutcome := fun _ => .ok ()
  , fetchResults := fr
  , proveOutcome := fun _ => .ok pd
  , verifyOk := true
  , bucketEnv := benv
  , preArchive := arc
  , submitOutcome := fun _ => .error e
  , waitOutcome := w
  , postArchive := arc2 }

def envWaitFails (fr : ℕ → List FetchResult) (pd : ProofData) (benv : BucketEnv)
    (arc arc2 : ArchiveEnv) (tx : List Char) (e : AgentError) : AgentEnv :=
  { providerOutcome := fun _ => .ok ()
  , fetchResults := fr
  , proveOutcome := fun _ => .ok pd
  , verifyOk := true
  , bucketEnv := benv
  , preArchive := arc
  , submitOutcome := fun _ => .ok tx
  , waitOutcome := .error e
  , postArchive := arc2 }

def isChainSubmit : Event → Bool
  | .chainSubmit _ => true
  | _ => false

/-- C5 (amended): the bounded exponential-backoff retry around the submit
call treats every error uniformly — a logical rejection (reverted
transaction) thrown by the submit call is retried exactly like a transient
RPC error, 3 attempts with delays 2000 ms and 4000 ms, and only the final
attempt's error surfaces and fails the cycle; a success is never retried;
only a failure of the post-send confirmation wait surfaces without any
further submit attempt. -/
theorem C5_submit_retry_uniform (v : JSNum) (fr : ℕ → List FetchResult) (pd : ProofData)
    (benv : BucketEnv) (arc arc2 : ArchiveEnv) (w : Except AgentError ℕ)
    (e e2 : AgentError) (tx : List Char) (keccak : List Char → List Char) :
    (submitOnce keccak (some v) (envSubmitAlwaysFails fr pd benv arc arc2 w e)).1 = .error e ∧
    ((submitOnce keccak (some v) (envSubmitAlwaysFails fr pd benv arc arc2 w e)).2.filter
        isChainSubmit).length = 3 ∧
    (retry (fun _ => (.error e : Except AgentError (List Char))) 3).2 = (3, [2000, 4000]) ∧
    (retry (fun _ => (.ok tx : Except AgentError (List Char))) 3).2 = (1, []) ∧
    (submitOnce keccak (some v) (envWaitFails fr pd benv arc arc2 tx e2)).1 = .error e2 ∧
    ((submitOnce keccak (some v) (envWaitFails fr pd benv arc arc2 tx e2)).2.filter
        isChainSubmit).length = 1 :=
  ⟨rfl, rfl, rfl, rfl, rfl, rfl⟩

-- C5 counterexample: fully concrete run.

def pdC : ProofData :=
  ⟨⟨fun _ => 0, fun _ _ => 0, fun _ => 0⟩, [], "0xc0".toList, "100".toList,
   "1700000000".toList, 0⟩

def benvC : BucketEnv := ⟨false, .ok (), none, .ok ()⟩

def arcOkC : ArchiveEnv := ⟨.ok (), remoteFailEnv⟩

def envRevertC : AgentEnv :=
  envSubmitAlwaysFails (fun _ => []) pdC benvC arcOkC arcOkC (.ok 1) .chainReverted

/-- C5 (counterexample): a submit call that deterministically reverts on
every attempt is retried — the cycle performs 3 on-chain submit attempts
with backoff delays 2000 ms and 4000 ms before the revert error surfaces,
instead of surfacing it immediately without retry. -/
theorem C5_counterexample_revert_is_retried :
    (submitOnce (fun l => l) (some (.fin 100)) envRevertC).1 = .error .chainReverted ∧
    ((submitOnce (fun l => l) (some (.fin 100)) envRevertC).2.filter isChainSubmit).length = 3 ∧
    (retry (fun _ => (.error AgentError.chainReverted : Except AgentError (List Char))) 3).2
      = (3, [2000, 4000]) :=
  ⟨rfl, rfl, rfl⟩

def envPreArchiveOk (fr : ℕ → List FetchResult) (pd : ProofData) (benv : BucketEnv)
    (arc2 : ArchiveEnv) (rest : List Char) (blk : ℕ) : AgentEnv :=
  { providerOutcome := fun _ => .ok ()
  , fetchResults := fr
  , proveOutcome := fun _ => .ok pd
  , verifyOk := true
  , bucketEnv := benv
  , preArchive := ⟨.ok (), remoteFailEnv⟩
  , submitOutcome := fun _ => .ok ('0' :: 'x' :: rest)
  , waitOutcome := .ok blk
  , postArchive := arc2 }

def envPreArchiveThrows (fr : ℕ → List FetchResult) (pd : ProofData) (benv : BucketEnv)
    (arc2 : ArchiveEnv) (rest : List Char) (blk : ℕ) (aerr : AgentError) : AgentEnv :=
  { providerOutcome := fun _ => .ok ()
  , fetchResults := fr
  , proveOutcome := fun _ => .ok pd
  , verifyOk := true
  , bucketEnv := benv
  , preArchive := ⟨.error aerr, remoteFailEnv⟩
  , submitOutcome := fun _ => .ok ('0' :: 'x' :: rest)
  , waitOutcome := .ok blk
  , postArchive := arc2 }

/-- C10 (confirmed): in a successful cycle the reference submitted on-chain
is the keccak of the pre-submission object name built with the
`pending-<timestamp>` placeholder; the post-submission re-archive under the
real `0x…` transaction hash yields a different object name and (keccak being
injective) a different reference, which is never the one submitted; and when
the pre-submission archive throws, the on-chain reference is the keccak of
the third preimage `veris-proof-<timestamp>`, again different from the
transaction-annotated record's reference. -/
theorem C10_onchain_ref_mismatch (keccak : List Char → List Char) (hinj : Function.Injective keccak)
    (v : JSNum) (fr : ℕ → List FetchResult) (pd : ProofData) (benv : BucketEnv)
    (arc2 : ArchiveEnv) (rest : List Char) (blk : ℕ) (aerr : AgentError) :
    (submitOnce keccak (some v) (envPreArchiveOk fr pd benv arc2 rest blk)).1 =
      .ok ⟨v, pd.commitment, '0' :: 'x' :: rest, blk, true,
           keccak (objectNameOf pd.timestamp (pendingTag pd.timestamp)), false⟩ ∧
    (submitOnce keccak (some v) (envPreArchiveOk fr pd benv arc2 rest blk)).2 =
      [.rpcAttempt, .fetchAttempt, .proveAttempt, .localVerify true, .archivePre,
       .chainSubmit ⟨pd.price, pd.timestamp, pd.commitment, proof_a pd.proofObj,
         proof_b pd.proofObj, proof_c pd.proofObj,
         keccak (objectNameOf pd.timestamp (pendingTag pd.timestamp))⟩,
       .txWait, .archivePost] ∧
    (uploadProofT keccak pd ('0' :: 'x' :: rest) ⟨.ok (), remoteFailEnv⟩).1 =
      .ok ⟨objectNameOf pd.timestamp ('0' :: 'x' :: rest),
           keccak (objectNameOf pd.timestamp ('0' :: 'x' :: rest)), false⟩ ∧
    keccak (objectNameOf pd.timestamp ('0' :: 'x' :: rest)) ≠
      keccak (objectNameOf pd.timestamp (pendingTag pd.timestamp)) ∧
    (submitOnce keccak (some v) (envPreArchiveThrows fr pd benv arc2 rest blk aerr)).1 =
      .ok ⟨v, pd.commitment, '0' :: 'x' :: rest, blk, true,
           keccak (fallbackName pd.timestamp), false⟩ ∧
    keccak (objectNameOf pd.timestamp ('0' :: 'x' :: rest)) ≠ keccak (fallbackName pd.timestamp) := by
  refine ⟨rfl, rfl, rfl, ?_, rfl, ?_⟩
  · intro h
    have h2 := hinj h
    unfold objectNameOf pendingTag at h2
    rw [List.append_assoc, List.append_assoc, List.append_assoc, List.append_assoc,
      List.append_assoc, List.append_assoc] at h2
    have h3 := List.append_cancel_left h2
    have h4 := List.append_cancel_left h3
    have h5 := List.append_cancel_left h4
    simp [List.take] at h5
  · intro h
    have h2 := hinj h
    have hl := congrArg List.length h2
    simp only [objectNameOf, fallbackName, List.length_append, List.length_take,
      List.length_cons] at hl
    omega


/-- C7 witness: the archive theorem at a concrete record, identity hash and
an unavailable remote store. -/
theorem C7_archive_never_raises_witness :
    uploadProofT (fun l => l) pdC ("0xabc".toList) arcOkC =
      (.ok ⟨objectNameOf pdC.timestamp ("0xabc".toList),
            objectNameOf pdC.timestamp ("0xabc".toList),
            remoteAllOk arcOkC.remote⟩,
       .localWrite :: (remoteAttempt arcOkC.remote).2) ∧
    (∀ benv : BucketEnv, ∃ b, ensureBucket benv = .ok b) :=
  C7_archive_never_raises (fun l => l) pdC ("0xabc".toList) arcOkC rfl

/-- C10 witness: the reference-mismatch theorem at the identity hash (which
is injective) and a fully concrete cycle environment. -/
theorem C10_onchain_ref_mismatch_witness :
    (submitOnce (fun l => l) (some (.fin 100))
        (envPreArchiveOk (fun _ => []) pdC benvC arcOkC ("abc".toList) 5)).1 =
      .ok ⟨.fin 100, pdC.commitment, '0' :: 'x' :: "abc".toList, 5, true,
           objectNameOf pdC.timestamp (pendingTag pdC.timestamp), false⟩ ∧
    (submitOnce (fun l => l) (some (.fin 100))
        (envPreArchiveOk (fun _ => []) pdC benvC arcOkC ("abc".toList) 5)).2 =
      [.rpcAttempt, .fetchAttempt, .proveAttempt, .localVerify true, .archivePre,
       .chainSubmit ⟨pdC.price, pdC.timestamp, pdC.commitment, proof_a pdC.proofObj,
         proof_b pdC.proofObj, proof_c pdC.proofObj,
         objectNameOf pdC.timestamp (pendingTag pdC.timestamp)⟩,
       .txWait, .archivePost] ∧
    (uploadProofT (fun l => l) pdC ('0' :: 'x' :: "abc".toList) ⟨.ok (), remoteFailEnv⟩).1 =
      .ok ⟨objectNameOf pdC.timestamp ('0' :: 'x' :: "abc".toList),
           objectNameOf pdC.timestamp ('0' :: 'x' :: "abc".toList), false⟩ ∧
    objectNameOf pdC.timestamp ('0' :: 'x' :: "abc".toList) ≠
      objectNameOf pdC.timestamp (pendingTag pdC.timestamp) ∧
    (submitOnce (fun l => l) (some (.fin 100))
        (envPreArchiveThrows (fun _ => []) pdC benvC arcOkC ("abc".toList) 5
          .localWriteFailed)).1 =
      .ok ⟨.fin 100, pdC.commitment, '0' :: 'x' :: "abc".toList, 5, true,
           fallbackName pdC.timestamp, false⟩ ∧
    objectNameOf pdC.timestamp ('0' :: 'x' :: "abc".toList) ≠ fallbackName pdC.timestamp :=
  C10_onchain_ref_mismatch (fun l => l) (fun _ _ h => h) (.fin 100) (fun _ => []) pdC benvC
    arcOkC ("abc".toList) 5 .localWriteFailed

end Veris
